import Mathlib

/-!
Verification of the hardware-metrics script `tools/hardward/get_hard_info.py`.

The script is shallowly embedded: every collector becomes a pure Lean
function over an explicit environment record that stands for the results of
the `psutil` / `platform` / `GPUtil` queries.  Python dictionaries become
insertion-ordered association lists, Python `None` becomes an explicit
`Val.null`, a raised exception that escapes a function becomes
`Except.error`.  Python floats are modelled as exact rationals; the
`"{x:.2f}"` format is modelled by round-half-to-even on the scaled rational,
which agrees with CPython on every value whose binary representation is
exact (in particular on all integer byte counts below 2^53).
-/

set_option maxRecDepth 8000

namespace GetHardInfo

/-- Round a rational to the nearest integer, ties going to the even
integer.  This is the rounding CPython's `"{x:.2f}"` applies to the
(binary-exact) scaled value. -/
def roundHalfEven (q : ℚ) : ℤ :=
  if q - ⌊q⌋ < 1/2 then ⌊q⌋
  else if 1/2 < q - ⌊q⌋ then ⌊q⌋ + 1
  else if ⌊q⌋ % 2 = 0 then ⌊q⌋ else ⌊q⌋ + 1

/-- Two-digit zero padding for the fractional part of a `.2f` rendering. -/
def pad2 (n : ℕ) : String :=
  if n < 10 then "0" ++ toString n else toString n

/-- The Python format `f"{q:.2f}"` for a non-negative value: the value is
scaled by 100, rounded half-to-even, and printed as `intpart.fracpart`
with exactly two fractional digits. -/
def fmt2 (q : ℚ) : String :=
  toString ((roundHalfEven (q * 100)).toNat / 100) ++ "." ++
    pad2 ((roundHalfEven (q * 100)).toNat % 100)

/-- The loop body of `get_size`: walk the unit list, returning at the first
unit where the running value is below the factor 1024, dividing by 1024
otherwise.  Falling off the list is Python's implicit `return None`.

The source's `bytes /= factor` is IEEE-double division; dividing a double
by 1024 only rescales the exponent, so it is exact whenever the operand is
exact.  An integer byte count below `2^53` is an exact double and every
value of the loop therefore is too: on `[0, 2^53)` this rational embedding
coincides with CPython step for step.  At and above `2^53` the initial
int-to-float conversion rounds and the embedding may diverge from the
program (e.g. at `2^60 - 1` CPython's first division rounds up to exactly
`2^50` and the loop falls off returning `None`); the claim theorems about
formatted output are therefore stated on `[0, 2^53)` only. -/
def get_size_go (suffix : String) : List String → ℚ → Option String
  | [], _ => none
  | unit :: rest, b =>
      if b < 1024 then some (fmt2 b ++ unit ++ suffix)
      else get_size_go suffix rest (b / 1024)

/-- Embedding of `get_size(bytes, suffix)` from `get_hard_info.py`,
faithful to CPython on integer byte counts below `2^53` (see
`get_size_go` on the float-exactness domain). -/
def get_size (b : ℚ) (suffix : String) : Option String :=
  get_size_go suffix ["", "K", "M", "G", "T", "P"] b

/-- The unit prefixes used by `get_size`, in loop order. -/
def unit_names : List String := ["", "K", "M", "G", "T", "P"]

/-- Modelled from the spec: "divide repeatedly by 1024 while the value is
>= 1024, stop at the first unit where it is not".  Equivalently, the index
of the selected unit is the first `k` with `b < 1024^(k+1)`; the numeric
thresholds are the powers `1024^1 .. 1024^5`. -/
def spec_unit_index (x : ℚ) : ℕ :=
  if x < 1024 then 0
  else if x < 1048576 then 1
  else if x < 1073741824 then 2
  else if x < 1099511627776 then 3
  else if x < 1125899906842624 then 4
  else 5

/-- Modelled from the spec: the "1024-unit bucket" of a value, i.e. the
largest `k` with `1024^k <= x` (0 for values below 1024).  One extra bucket
beyond the last unit is provided so the bucket of a re-parsed value at the
`1024^6` boundary is expressible. -/
def spec_bucket (x : ℚ) : ℕ :=
  if x < 1024 then 0
  else if x < 1048576 then 1
  else if x < 1073741824 then 2
  else if x < 1099511627776 then 3
  else if x < 1125899906842624 then 4
  else if x < 1152921504606846976 then 5
  else 6

/-- Modelled from the spec: re-parsing the output of `get_size` means
taking the numeric magnitude of the unit-suffixed string (which `fmt2`
renders as `n/100` where `n` is the half-even rounding of the scaled
value) and multiplying it by the selected unit's power of 1024. -/
def spec_reparse (b : ℚ) : ℚ :=
  ((roundHalfEven (b / 1024 ^ spec_unit_index b * 100) : ℚ) / 100) *
    1024 ^ spec_unit_index b

example : get_size 0 "B" = some "0.00B" := by with_unfolding_all rfl
example : get_size 1023 "B" = some "1023.00B" := by with_unfolding_all rfl
example : get_size 1024 "B" = some "1.00KB" := by with_unfolding_all rfl
example : get_size 1048576 "B" = some "1.00MB" := by with_unfolding_all rfl
example : get_size 1253656 "B" = some "1.20MB" := by with_unfolding_all rfl
example : get_size 1253656678 "B" = some "1.17GB" := by with_unfolding_all rfl
example : get_size 1048575 "B" = some "1024.00KB" := by with_unfolding_all rfl
example : get_size 1152921504606846976 "B" = none := by with_unfolding_all rfl
example : fmt2 (1152 / 1024) = "1.12" := by with_unfolding_all rfl
example : spec_reparse 1048575 = 1048576 := by with_unfolding_all rfl

/-! ## Data model

Python dictionary values are heterogeneous; `Val` is the value universe of
the report.  `Val.floatStr q s` stands for the Python string `f"{x}{s}"`
where `x` is a float of exact value `q`: the textual repr of a float is not
modelled, only the value and the suffix are retained (no claim inspects
those strings' text). `Val.null` is Python's `None`. -/

inductive Val where
  | str : String → Val
  | nat : ℕ → Val
  | floatStr : ℚ → String → Val
  | null : Val
  | obj : List (String × Val) → Val

/-- Python dict assignment `d[k] = v` on an insertion-ordered association
list: replace the value in place if the key is present, append otherwise. -/
def dinsert {α : Type} : List (String × α) → String → α → List (String × α)
  | [], k, v => [(k, v)]
  | e :: rest, k, v => if e.1 = k then (k, v) :: rest else e :: dinsert rest k v

/-- `get_size` applied to a byte count, wrapped as a dict value (`None`
becomes `Val.null`, as it would in the produced JSON). -/
def sizeVal (n : ℕ) : Val :=
  match get_size (n : ℚ) "B" with
  | some s => .str s
  | none => .null

/-- Result of `platform.uname()`. -/
structure Uname where
  system : String
  node : String
  release : String
  version : String
  machine : String
  processor : String

/-- The local-time components of the boot timestamp. -/
structure BootDT where
  year : ℕ
  month : ℕ
  day : ℕ
  hour : ℕ
  minute : ℕ
  second : ℕ

/-- Result of `psutil.cpu_freq()` when the platform exposes it. -/
structure Freq where
  max : ℚ
  min : ℚ
  current : ℚ

/-- Result of `psutil.virtual_memory()` (the fields the script reads). -/
structure MemStat where
  total : ℕ
  available : ℕ
  used : ℕ
  percent : ℚ

/-- Result of `psutil.swap_memory()` (the fields the script reads). -/
structure SwapStat where
  total : ℕ
  free : ℕ
  used : ℕ
  percent : ℚ

/-- One element of `psutil.disk_partitions()`. -/
structure Partition where
  device : String
  mountpoint : String
  fstype : String
  opts : String
  maxfile : ℕ
  maxpath : ℕ

/-- Result of `psutil.disk_usage(mountpoint)` when it does not raise. -/
structure Usage where
  total : ℕ
  used : ℕ
  free : ℕ
  percent : ℚ

/-- Result of `psutil.disk_io_counters()` (the fields the script reads). -/
structure DiskCounters where
  read_bytes : ℕ
  write_bytes : ℕ

/-- Result of `psutil.net_io_counters()` (the fields the script reads). -/
structure NetCounters where
  bytes_sent : ℕ
  bytes_recv : ℕ

/-- Address family of one `psutil` interface address, as far as the script
distinguishes them (`AF_INET`, `AF_PACKET`, anything else). -/
inductive AFam where
  | inet
  | packet
  | other

/-- One address record of `psutil.net_if_addrs()`. -/
structure Addr where
  family : AFam
  address : String
  netmask : Option String
  broadcast : Option String

/-- One element of `GPUtil.getGPUs()` (the fields the script reads). -/
structure GPU where
  id : ℕ
  uuid : String
  name : String
  load : ℚ
  memoryFree : ℚ
  memoryUsed : ℚ
  memoryTotal : ℚ
  temperature : ℚ

/-- The operating-system state observed by one invocation: one field per
external query the script performs.  `cpu_freq = none` models the platform
not exposing CPU frequency (the `psutil.cpu_freq()` query failing), and
`disk_usage` returning `Except.error` models `psutil.disk_usage` raising
`PermissionError` for that mountpoint. -/
structure Env where
  uname : Uname
  boot : BootDT
  physical_cores : ℕ
  logical_cores : ℕ
  cpu_freq : Option Freq
  per_core : List ℚ
  total_cpu : ℚ
  vmem : MemStat
  swap : SwapStat
  partitions : List Partition
  disk_usage : String → Except Unit Usage
  dio : DiskCounters
  nio : NetCounters
  ifs : List (String × List Addr)
  gpus : List GPU

/-! ## Collectors -/

/-- Embedding of `system_info()`. -/
def system_info (u : Uname) : Val :=
  .obj [("System", .str u.system), ("Node Name", .str u.node),
        ("Release", .str u.release), ("Version", .str u.version),
        ("Machine", .str u.machine), ("Processor", .str u.processor)]

/-- Embedding of `boot_time()`: the f-string `"{y}/{m}/{d} {h}:{min}:{s}"`. -/
def boot_time (bt : BootDT) : Val :=
  .obj [("Boot Time",
    .str (toString bt.year ++ "/" ++ toString bt.month ++ "/" ++
      toString bt.day ++ " " ++ toString bt.hour ++ ":" ++
      toString bt.minute ++ ":" ++ toString bt.second))]

/-- Embedding of `cpu_info()`.  The source reads `cpufreq.max` without any
guard, so a failing `psutil.cpu_freq()` query escapes the collector: that
is the `Except.error` branch. -/
def cpu_info (physical logical : ℕ) (freq : Option Freq) : Except Unit Val :=
  match freq with
  | none => .error ()
  | some f =>
      .ok (.obj [("Physical cores", .nat physical), ("Total cores", .nat logical),
        ("Max Frequency", .str (fmt2 f.max ++ "Mhz")),
        ("Min Frequency", .str (fmt2 f.min ++ "Mhz")),
        ("Current Frequency", .str (fmt2 f.current ++ "Mhz"))])

/-- Embedding of `cpu_usage()`: one `Core i` entry per element of the
sampled per-core list, then the total. -/
def cpu_usage (per_core : List ℚ) (total : ℚ) : Val :=
  .obj ((per_core.enum.map fun ip =>
    ("Core " ++ toString ip.1, Val.floatStr ip.2 "%")) ++
    [("Total CPU Usage", Val.floatStr total "%")])

/-- Embedding of `memory_info()`. -/
def memory_info (m : MemStat) : Val :=
  .obj [("Total", sizeVal m.total), ("Available", sizeVal m.available),
        ("Used", sizeVal m.used), ("Percentage", .floatStr m.percent "%")]

/-- Embedding of `swap_memory()`. -/
def swap_memory (s : SwapStat) : Val :=
  .obj [("Total", sizeVal s.total), ("Free", sizeVal s.free),
        ("Used", sizeVal s.used), ("Percentage", .floatStr s.percent "%")]

/-- The mount-metadata entries written for a partition before its usage is
queried. -/
def partMeta (p : Partition) : List (String × Val) :=
  [("Mountpoint", .str p.mountpoint), ("File system type", .str p.fstype),
   ("opts", .str p.opts), ("maxfile", .nat p.maxfile), ("maxpath", .nat p.maxpath)]

/-- The full entry for a partition whose usage query succeeded. -/
def partFull (p : Partition) (u : Usage) : List (String × Val) :=
  partMeta p ++
    [("Total Size", sizeVal u.total), ("Used", sizeVal u.used),
     ("Free", sizeVal u.free), ("Percentage", .floatStr u.percent "%")]

/-- The loop of `disk_info()`.  Each partition first gets a metadata entry;
a `PermissionError` from `disk_usage` skips to the next partition (leaving
the metadata entry in place); a successful usage query fills in the usage
fields and `return data` exits the loop immediately.  Falling off the loop
(empty enumeration, or every partition denied) is Python's implicit
`return None`. -/
def disk_info_go (du : String → Except Unit Usage) :
    List Partition → List (String × Val) → Option (List (String × Val))
  | [], _ => none
  | p :: rest, acc =>
      match du p.mountpoint with
      | .error _ => disk_info_go du rest (dinsert acc p.device (.obj (partMeta p)))
      | .ok u => some (dinsert acc p.device (.obj (partFull p u)))

/-- Embedding of `disk_info()`. -/
def disk_info (ps : List Partition) (du : String → Except Unit Usage) :
    Option (List (String × Val)) :=
  disk_info_go du ps []

/-- Embedding of `diskio()`. -/
def diskio (d : DiskCounters) : Val :=
  .obj [("Total read", sizeVal d.read_bytes), ("Total write", sizeVal d.write_bytes)]

/-- One address-record update of the per-interface dict in `natwork_info()`. -/
def addrUpd (info : List (String × Val)) (a : Addr) : List (String × Val) :=
  match a.family with
  | .inet =>
      dinsert (dinsert (dinsert info "IP Address" (.str a.address))
        "Netmask" (match a.netmask with | some s => .str s | none => .null))
        "Broadcast IP" (match a.broadcast with | some s => .str s | none => .null)
  | .packet =>
      dinsert (dinsert (dinsert info "MAC Address" (.str a.address))
        "Netmask:" (match a.netmask with | some s => .str s | none => .null))
        "Broadcast MAC" (match a.broadcast with | some s => .str s | none => .null)
  | .other => info

/-- Embedding of `natwork_info()` (source spelling). -/
def natwork_info (ifs : List (String × List Addr)) : Val :=
  .obj (ifs.foldl (fun data itf =>
    dinsert data itf.1 (.obj (itf.2.foldl addrUpd []))) [])

/-- Embedding of `io_stats()`. -/
def io_stats (n : NetCounters) : Val :=
  .obj [("Total Bytes Sent", sizeVal n.bytes_sent),
        ("Total Bytes Received", sizeVal n.bytes_recv)]

/-- The eight dict assignments of one iteration of the GPU loop. -/
def gpuUpd (info : List (String × Val)) (g : GPU) : List (String × Val) :=
  dinsert (dinsert (dinsert (dinsert (dinsert (dinsert (dinsert (dinsert info
    "gpu_id" (.nat g.id))
    "gpu_uuid" (.str g.uuid))
    "gpu_name" (.str g.name))
    "gpu_load" (.floatStr (g.load * 100) "%"))
    "gpu_free_memory" (.floatStr g.memoryFree "MB"))
    "gpu_used_memory" (.floatStr g.memoryUsed "MB"))
    "gpu_total_memory" (.floatStr g.memoryTotal "MB"))
    "gpu_temperature" (.floatStr g.temperature "Â°C")

/-- The flat record the GPU loop leaves behind: the last GPU's fields in
first-assignment order. -/
def gpuFields (g : GPU) : List (String × Val) :=
  [("gpu_id", .nat g.id), ("gpu_uuid", .str g.uuid), ("gpu_name", .str g.name),
   ("gpu_load", .floatStr (g.load * 100) "%"),
   ("gpu_free_memory", .floatStr g.memoryFree "MB"),
   ("gpu_used_memory", .floatStr g.memoryUsed "MB"),
   ("gpu_total_memory", .floatStr g.memoryTotal "MB"),
   ("gpu_temperature", .floatStr g.temperature "Â°C")]

/-- Embedding of `gpu_stats()`: a fixed outer dict with one `"GPU"` entry,
whose fields are overwritten once per enumerated GPU. -/
def gpu_stats (gpus : List GPU) : Val :=
  .obj [("GPU", .obj (gpus.foldl gpuUpd []))]

/-- Embedding of the aggregation in `hardware_info()` (the data collection
only; the click/file-output wrappers are out of scope).  An exception from
`cpu_info` propagates and no report is produced. -/
def hardware_info (env : Env) : Except Unit (List (String × Val)) :=
  match cpu_info env.physical_cores env.logical_cores env.cpu_freq with
  | .error e => .error e
  | .ok cpu =>
      .ok [("System Information", system_info env.uname),
           ("Boot Time", boot_time env.boot),
           ("CPU Information", cpu),
           ("CPU Usage Per Core", cpu_usage env.per_core env.total_cpu),
           ("Memory Information", memory_info env.vmem),
           ("SWAP Memory", swap_memory env.swap),
           ("Disk Information",
             match disk_info env.partitions env.disk_usage with
             | some l => Val.obj l
             | none => Val.null),
           ("Disk IO", diskio env.dio),
           ("Network Information", natwork_info env.ifs),
           ("IO Stat", io_stats env.nio),
           ("gpu_stats", gpu_stats env.gpus)]

/-! ## Concrete fixtures used by witnesses and counterexamples -/

/-- A usage record for a readable partition. -/
def uA : Usage := ⟨1000, 300, 700, 30⟩

/-- A disk-usage query that succeeds on every mountpoint. -/
def duA : String → Except Unit Usage := fun _ => .ok uA

/-- A disk-usage query raising `PermissionError` exactly on `"/"`. -/
def du4 : String → Except Unit Usage :=
  fun m => if m = "/" then .error () else .ok uA

def pA : Partition := ⟨"/dev/sda1", "/", "ext4", "rw", 255, 4096⟩

def pB : Partition := ⟨"/dev/sda2", "/boot", "ext4", "rw", 255, 4096⟩

def pC : Partition := ⟨"/dev/sda3", "/home", "ext4", "rw", 255, 4096⟩

def gA : GPU := ⟨0, "uuid-a", "gpu-a", 1/2, 1000, 24, 1024, 55⟩

def gB : GPU := ⟨1, "uuid-b", "gpu-b", 1/4, 2000, 48, 2048, 60⟩

/-- A concrete machine state: frequency available, no partitions, no GPUs,
no interfaces. -/
def env0 : Env :=
  ⟨⟨"Linux", "host", "6.1.0", "#1 SMP", "x86_64", "x86_64"⟩,
   ⟨2024, 1, 2, 3, 4, 5⟩, 4, 8, some ⟨3600, 800, 2000⟩,
   [10, 20], 15, ⟨8192, 4096, 2048, 50⟩, ⟨0, 0, 0, 0⟩,
   [], fun _ => .error (), ⟨100, 200⟩, ⟨300, 400⟩, [], []⟩

/-- `env0` on a platform that does not expose CPU frequency. -/
def env_nofreq : Env :=
  ⟨⟨"Linux", "host", "6.1.0", "#1 SMP", "x86_64", "x86_64"⟩,
   ⟨2024, 1, 2, 3, 4, 5⟩, 4, 8, none,
   [10, 20], 15, ⟨8192, 4096, 2048, 50⟩, ⟨0, 0, 0, 0⟩,
   [], fun _ => .error (), ⟨100, 200⟩, ⟨300, 400⟩, [], []⟩

/-- The section keys in report order. -/
def reportKeys (e : Except Unit (List (String × Val))) : Option (List String) :=
  match e with
  | .ok r => some (r.map Prod.fst)
  | .error _ => none

example : reportKeys (hardware_info env0) =
    some ["System Information", "Boot Time", "CPU Information",
      "CPU Usage Per Core", "Memory Information", "SWAP Memory",
      "Disk Information", "Disk IO", "Network Information", "IO Stat",
      "gpu_stats"] := by with_unfolding_all rfl

example : hardware_info env_nofreq = .error () := rfl

example : disk_info [pA, pB, pC] du4 =
    some [("/dev/sda1", Val.obj (partMeta pA)),
          ("/dev/sda2", Val.obj (partFull pB uA))] := by with_unfolding_all rfl

/-! ## Association-list lemmas -/

/-- Whether a disk entry carries usage figures (the four keys are written
together; `"Total Size"` is their witness key). -/
def hasUsage : Val → Bool
  | .obj l => l.any fun e => e.1 == "Total Size"
  | _ => false

theorem hasUsage_meta (p : Partition) : hasUsage (Val.obj (partMeta p)) = false := rfl

theorem hasUsage_full (p : Partition) (u : Usage) :
    hasUsage (Val.obj (partFull p u)) = true := rfl

theorem countP_dinsert_one {α : Type} (P : α → Bool) :
    ∀ (acc : List (String × α)) (k : String) (v : α),
      (∀ e ∈ acc, P e.2 = false) → P v = true →
      (dinsert acc k v).countP (fun e => P e.2) = 1 := by
  intro acc
  induction acc with
  | nil =>
      intro k v _ hv
      simp [dinsert, List.countP_cons, hv]
  | cons e rest ih =>
      intro k v hacc hv
      by_cases hk : e.1 = k
      · have hrest : rest.countP (fun e => P e.2) = 0 := by
          rw [List.countP_eq_zero]
          intro a ha
          simp [hacc a (List.mem_cons_of_mem e ha)]
        simp [dinsert, hk, List.countP_cons, hv, hrest]
      · have he : P e.2 = false := hacc e (List.mem_cons_self e rest)
        have htail : (dinsert rest k v).countP (fun e => P e.2) = 1 :=
          ih k v (fun a ha => hacc a (List.mem_cons_of_mem e ha)) hv
        simp [dinsert, hk, List.countP_cons, he, htail]

theorem mem_dinsert_self {α : Type} :
    ∀ (acc : List (String × α)) (k : String) (v : α),
      ∃ e ∈ dinsert acc k v, e.1 = k ∧ e.2 = v := by
  intro acc
  induction acc with
  | nil => intro k v; exact ⟨(k, v), by simp [dinsert]⟩
  | cons e rest ih =>
      intro k v
      by_cases hk : e.1 = k
      · exact ⟨(k, v), by simp [dinsert, hk]⟩
      · obtain ⟨a, ha, hph⟩ := ih k v
        exact ⟨a, by simp [dinsert, hk, ha], hph⟩

theorem mem_key_dinsert {α : Type} :
    ∀ (acc : List (String × α)) (k : String) (v : α) (j : String),
      (∃ e ∈ acc, e.1 = j) → ∃ e ∈ dinsert acc k v, e.1 = j := by
  intro acc
  induction acc with
  | nil => intro k v j h; simp at h
  | cons e rest ih =>
      intro k v j h
      obtain ⟨a, ha, haj⟩ := h
      rcases List.mem_cons.mp ha with heq | hmem
      · rw [heq] at haj
        by_cases hk : e.1 = k
        · exact ⟨(k, v), by simp [dinsert, hk], by rw [← haj, hk]⟩
        · exact ⟨e, by simp [dinsert, hk], haj⟩
      · by_cases hk : e.1 = k
        · exact ⟨a, by simp [dinsert, hk, hmem], haj⟩
        · obtain ⟨b, hb, hbj⟩ := ih k v j ⟨a, hmem, haj⟩
          exact ⟨b, by simp [dinsert, hk, hb], hbj⟩

theorem all_dinsert {α : Type} (P : α → Bool) :
    ∀ (acc : List (String × α)) (k : String) (v : α),
      (∀ e ∈ acc, P e.2 = false) → P v = false →
      ∀ e ∈ dinsert acc k v, P e.2 = false := by
  intro acc
  induction acc with
  | nil => intro k v _ hv e he; simp [dinsert] at he; simp [he, hv]
  | cons a rest ih =>
      intro k v hacc hv e he
      by_cases hk : a.1 = k
      · simp [dinsert, hk] at he
        rcases he with rfl | hmem
        · exact hv
        · exact hacc e (List.mem_cons_of_mem a hmem)
      · simp [dinsert, hk] at he
        rcases he with heq | hmem
        · rw [heq]; exact hacc a (List.mem_cons_self a rest)
        · exact ih k v (fun b hb => hacc b (List.mem_cons_of_mem a hb)) hv e hmem

/-- Full analysis of the `disk_info` loop when some partition is readable:
the partition list splits at the first readable partition, the loop exits
there (the run truncated after that partition gives the same result),
exactly one entry carries usage figures, that entry is keyed by the first
readable partition's device, every earlier (denied) partition still has a
metadata entry, and keys already in the accumulator survive. -/
theorem disk_info_go_spec (du : String → Except Unit Usage) :
    ∀ (ps : List Partition) (acc : List (String × Val)),
      (∀ e ∈ acc, hasUsage e.2 = false) →
      (∃ p ∈ ps, ∃ u, du p.mountpoint = Except.ok u) →
      ∃ pre p post u res,
        ps = pre ++ p :: post ∧
        (∀ q ∈ pre, ∀ u2, du q.mountpoint ≠ Except.ok u2) ∧
        du p.mountpoint = Except.ok u ∧
        disk_info_go du ps acc = some res ∧
        disk_info_go du (pre ++ [p]) acc = some res ∧
        res.countP (fun e => hasUsage e.2) = 1 ∧
        (∃ e ∈ res, e.1 = p.device ∧ hasUsage e.2 = true) ∧
        (∀ q ∈ pre, ∃ e ∈ res, e.1 = q.device) ∧
        (∀ j, (∃ e ∈ acc, e.1 = j) → ∃ e ∈ res, e.1 = j) := by
  intro ps
  induction ps with
  | nil => intro acc _ hex; simp at hex
  | cons p0 rest ih =>
      intro acc hacc hex
      cases hdu : du p0.mountpoint with
      | ok u0 =>
          refine ⟨[], p0, rest, u0, dinsert acc p0.device (.obj (partFull p0 u0)),
            by simp, by simp, hdu, ?_, ?_, ?_, ?_, by simp, ?_⟩
          · simp [disk_info_go, hdu]
          · simp [disk_info_go, hdu]
          · exact countP_dinsert_one _ acc _ _ hacc (hasUsage_full p0 u0)
          · obtain ⟨e, he, he1, he2⟩ := mem_dinsert_self acc p0.device
              (Val.obj (partFull p0 u0))
            exact ⟨e, he, he1, by rw [he2]; exact hasUsage_full p0 u0⟩
          · intro j hj
            exact mem_key_dinsert acc p0.device _ j hj
      | error e0 =>
          have hex2 : ∃ p ∈ rest, ∃ u, du p.mountpoint = Except.ok u := by
            obtain ⟨p, hp, u, hu⟩ := hex
            rcases List.mem_cons.mp hp with heq | hmem
            · rw [heq, hdu] at hu; exact absurd hu (by simp)
            · exact ⟨p, hmem, u, hu⟩
          have hacc2 : ∀ e ∈ dinsert acc p0.device (Val.obj (partMeta p0)),
              hasUsage e.2 = false :=
            all_dinsert _ acc _ _ hacc (hasUsage_meta p0)
          obtain ⟨pre, p, post, u, res, heq, hpre, hok, hrun, htr, hcount,
            hukey, hprekeys, hkeep⟩ :=
            ih (dinsert acc p0.device (Val.obj (partMeta p0))) hacc2 hex2
          refine ⟨p0 :: pre, p, post, u, res, by rw [heq]; simp, ?_, hok, ?_, ?_,
            hcount, hukey, ?_, ?_⟩
          · intro q hq u2
            rcases List.mem_cons.mp hq with hq0 | hmem
            · rw [hq0, hdu]; simp
            · exact hpre q hmem u2
          · simpa [disk_info_go, hdu] using hrun
          · simpa [disk_info_go, hdu] using htr
          · intro q hq
            rcases List.mem_cons.mp hq with hq0 | hmem
            · rw [hq0]
              apply hkeep
              obtain ⟨e, he, he1, _⟩ := mem_dinsert_self acc p0.device
                (Val.obj (partMeta p0))
              exact ⟨e, he, he1⟩
            · exact hprekeys q hmem
          · intro j hj
            exact hkeep j (mem_key_dinsert acc p0.device _ j hj)

/-! ## GPU loop lemmas -/

theorem gpuUpd_nil (g : GPU) : gpuUpd [] g = gpuFields g := rfl

theorem gpuUpd_overwrite (g g2 : GPU) : gpuUpd (gpuFields g) g2 = gpuFields g2 := rfl

theorem gpu_foldl_last :
    ∀ (rest : List GPU) (g : GPU),
      rest.foldl gpuUpd (gpuFields g) = gpuFields (rest.getLast?.getD g) := by
  intro rest
  induction rest with
  | nil => intro g; rfl
  | cons g2 rest2 ih =>
      intro g
      have h1 : (g2 :: rest2).foldl gpuUpd (gpuFields g) =
          rest2.foldl gpuUpd (gpuFields g2) := by
        simp [List.foldl_cons, gpuUpd_overwrite]
      rw [h1, ih g2]
      cases rest2 with
      | nil => rfl
      | cons g3 rest3 =>
          have hs : ((g3 :: rest3).getLast?).isSome := by
            rw [List.getLast?_isSome]; simp
          obtain ⟨x, hx⟩ := Option.isSome_iff_exists.mp hs
          simp [List.getLast?_cons_cons, hx]

/-! ## Rounding bounds -/

theorem round_lb (q : ℚ) : q - 1/2 ≤ (roundHalfEven q : ℚ) := by
  have hfl : ((⌊q⌋ : ℤ) : ℚ) ≤ q := Int.floor_le q
  have hfu : q < (⌊q⌋ : ℚ) + 1 := Int.lt_floor_add_one q
  unfold roundHalfEven
  split_ifs with h1 h2 h3 <;> push_cast <;> linarith

theorem round_ub (q : ℚ) : (roundHalfEven q : ℚ) ≤ q + 1/2 := by
  have hfl : ((⌊q⌋ : ℤ) : ℚ) ≤ q := Int.floor_le q
  have hfu : q < (⌊q⌋ : ℚ) + 1 := Int.lt_floor_add_one q
  unfold roundHalfEven
  split_ifs with h1 h2 h3 <;> push_cast <;> linarith

theorem round_nonneg (q : ℚ) (h : 0 ≤ q) : 0 ≤ roundHalfEven q := by
  by_contra hc
  push_neg at hc
  have h2 : roundHalfEven q ≤ -1 := by omega
  have h3 : ((roundHalfEven q : ℤ) : ℚ) ≤ -1 := by exact_mod_cast h2
  have h4 := round_lb q
  linarith

/-! ## The unit-selection analysis of `get_size` -/

/-- On `[0, 1024^6)`, `get_size` produces exactly the `.2f` rendering of
the value scaled down by the selected unit's power of 1024, suffixed with
that unit's name and `"B"`; the selected unit is the first one whose
threshold the value does not reach, hence the largest whose power of 1024
does not exceed the value. -/
theorem get_size_spec (b : ℚ) (h0 : 0 ≤ b) (h6 : b < 1152921504606846976) :
    get_size b "B" = some (fmt2 (b / 1024 ^ spec_unit_index b) ++
      unit_names.getD (spec_unit_index b) "" ++ "B") ∧
    (spec_unit_index b = 0 ∨ (1024:ℚ) ^ spec_unit_index b ≤ b) ∧
    b < 1024 ^ (spec_unit_index b + 1) := by
  by_cases hb1 : b < 1024
  · have hui : spec_unit_index b = 0 := by
      simp only [spec_unit_index]; rw [if_pos hb1]
    have hmain : get_size b "B" = some (fmt2 b ++ "" ++ "B") := by
      simp only [get_size, get_size_go]; rw [if_pos hb1]
    refine ⟨?_, Or.inl hui, ?_⟩
    · rw [hmain, hui]; norm_num [unit_names]
    · rw [hui]; norm_num; linarith
  · by_cases hb2 : b < 1048576
    · have hge : (1024:ℚ) ≤ b := le_of_not_lt hb1
      have hui : spec_unit_index b = 1 := by
        simp only [spec_unit_index]; rw [if_neg hb1, if_pos hb2]
      have c2 : b / 1024 < 1024 := by
        rw [div_lt_iff (by norm_num : (0:ℚ) < 1024)]; linarith
      have hmain : get_size b "B" = some (fmt2 (b / 1024) ++ "K" ++ "B") := by
        simp only [get_size, get_size_go]; rw [if_neg hb1, if_pos c2]
      refine ⟨?_, Or.inr ?_, ?_⟩
      · rw [hmain, hui]; norm_num [unit_names]
      · rw [hui]; norm_num; linarith
      · rw [hui]; norm_num; linarith
    · by_cases hb3 : b < 1073741824
      · have hge : (1048576:ℚ) ≤ b := le_of_not_lt hb2
        have hui : spec_unit_index b = 2 := by
          simp only [spec_unit_index]; rw [if_neg hb1, if_neg hb2, if_pos hb3]
        have c2 : ¬ (b / 1024 < 1024) := not_lt.mpr (by
          rw [le_div_iff (by norm_num : (0:ℚ) < 1024)]; linarith)
        have c3 : b / 1024 / 1024 < 1024 := by
          rw [div_div, div_lt_iff (by norm_num : (0:ℚ) < 1024 * 1024)]; linarith
        have hdd : b / 1024 / 1024 = b / 1024 ^ 2 := by rw [div_div]; norm_num
        have hmain : get_size b "B" = some (fmt2 (b / 1024 / 1024) ++ "M" ++ "B") := by
          simp only [get_size, get_size_go]; rw [if_neg hb1, if_neg c2, if_pos c3]
        refine ⟨?_, Or.inr ?_, ?_⟩
        · rw [hmain, hui, hdd]; norm_num [unit_names]
        · rw [hui]; norm_num; linarith
        · rw [hui]; norm_num; linarith
      · by_cases hb4 : b < 1099511627776
        · have hge : (1073741824:ℚ) ≤ b := le_of_not_lt hb3
          have hui : spec_unit_index b = 3 := by
            simp only [spec_unit_index]
            rw [if_neg hb1, if_neg hb2, if_neg hb3, if_pos hb4]
          have c2 : ¬ (b / 1024 < 1024) := not_lt.mpr (by
            rw [le_div_iff (by norm_num : (0:ℚ) < 1024)]; linarith)
          have c3 : ¬ (b / 1024 / 1024 < 1024) := not_lt.mpr (by
            rw [div_div, le_div_iff (by norm_num : (0:ℚ) < 1024 * 1024)]; linarith)
          have c4 : b / 1024 / 1024 / 1024 < 1024 := by
            rw [div_div, div_div,
              div_lt_iff (by norm_num : (0:ℚ) < 1024 * (1024 * 1024))]
            linarith
          have hdd : b / 1024 / 1024 / 1024 = b / 1024 ^ 3 := by
            rw [div_div, div_div]; norm_num
          have hmain : get_size b "B" =
              some (fmt2 (b / 1024 / 1024 / 1024) ++ "G" ++ "B") := by
            simp only [get_size, get_size_go]
            rw [if_neg hb1, if_neg c2, if_neg c3, if_pos c4]
          refine ⟨?_, Or.inr ?_, ?_⟩
          · rw [hmain, hui, hdd]; norm_num [unit_names]
          · rw [hui]; norm_num; linarith
          · rw [hui]; norm_num; linarith
        · by_cases hb5 : b < 1125899906842624
          · have hge : (1099511627776:ℚ) ≤ b := le_of_not_lt hb4
            have hui : spec_unit_index b = 4 := by
              simp only [spec_unit_index]
              rw [if_neg hb1, if_neg hb2, if_neg hb3, if_neg hb4, if_pos hb5]
            have c2 : ¬ (b / 1024 < 1024) := not_lt.mpr (by
              rw [le_div_iff (by norm_num : (0:ℚ) < 1024)]; linarith)
            have c3 : ¬ (b / 1024 / 1024 < 1024) := not_lt.mpr (by
              rw [div_div, le_div_iff (by norm_num : (0:ℚ) < 1024 * 1024)]; linarith)
            have c4 : ¬ (b / 1024 / 1024 / 1024 < 1024) := not_lt.mpr (by
              rw [div_div, div_div,
                le_div_iff (by norm_num : (0:ℚ) < 1024 * (1024 * 1024))]
              linarith)
            have c5 : b / 1024 / 1024 / 1024 / 1024 < 1024 := by
              rw [div_div, div_div, div_div,
                div_lt_iff (by norm_num : (0:ℚ) < 1024 * (1024 * (1024 * 1024)))]
              linarith
            have hdd : b / 1024 / 1024 / 1024 / 1024 = b / 1024 ^ 4 := by
              rw [div_div, div_div, div_div]; norm_num
            have hmain : get_size b "B" =
                some (fmt2 (b / 1024 / 1024 / 1024 / 1024) ++ "T" ++ "B") := by
              simp only [get_size, get_size_go]
              rw [if_neg hb1, if_neg c2, if_neg c3, if_neg c4, if_pos c5]
            refine ⟨?_, Or.inr ?_, ?_⟩
            · rw [hmain, hui, hdd]; norm_num [unit_names]
            · rw [hui]; norm_num; linarith
            · rw [hui]; norm_num; linarith
          · have hge : (1125899906842624:ℚ) ≤ b := le_of_not_lt hb5
            have hui : spec_unit_index b = 5 := by
              simp only [spec_unit_index]
              rw [if_neg hb1, if_neg hb2, if_neg hb3, if_neg hb4, if_neg hb5]
            have c2 : ¬ (b / 1024 < 1024) := not_lt.mpr (by
              rw [le_div_iff (by norm_num : (0:ℚ) < 1024)]; linarith)
            have c3 : ¬ (b / 1024 / 1024 < 1024) := not_lt.mpr (by
              rw [div_div, le_div_iff (by norm_num : (0:ℚ) < 1024 * 1024)]; linarith)
            have c4 : ¬ (b / 1024 / 1024 / 1024 < 1024) := not_lt.mpr (by
              rw [div_div, div_div,
                le_div_iff (by norm_num : (0:ℚ) < 1024 * (1024 * 1024))]
              linarith)
            have c5 : ¬ (b / 1024 / 1024 / 1024 / 1024 < 1024) := not_lt.mpr (by
              rw [div_div, div_div, div_div,
                le_div_iff (by norm_num : (0:ℚ) < 1024 * (1024 * (1024 * 1024)))]
              linarith)
            have c6 : b / 1024 / 1024 / 1024 / 1024 / 1024 < 1024 := by
              rw [div_div, div_div, div_div, div_div,
                div_lt_iff
                  (by norm_num : (0:ℚ) < 1024 * (1024 * (1024 * (1024 * 1024))))]
              linarith
            have hdd : b / 1024 / 1024 / 1024 / 1024 / 1024 = b / 1024 ^ 5 := by
              rw [div_div, div_div, div_div, div_div]; norm_num
            have hmain : get_size b "B" =
                some (fmt2 (b / 1024 / 1024 / 1024 / 1024 / 1024) ++ "P" ++ "B") := by
              simp only [get_size, get_size_go]
              rw [if_neg hb1, if_neg c2, if_neg c3, if_neg c4, if_neg c5, if_pos c6]
            refine ⟨?_, Or.inr ?_, ?_⟩
            · rw [hmain, hui, hdd]; norm_num [unit_names]
            · rw [hui]; norm_num; linarith
            · rw [hui]; norm_num; linarith

/-- The bucket of the re-parsed value: with `k` the selected unit index,
the rounded magnitude is at most `1024.00`; below that bound the re-parsed
value stays in bucket `k`, and at exactly `1024.00` it is exactly the
lower boundary `1024^(k+1)` of the next bucket. -/
theorem reparse_case (b : ℚ) (k : ℕ) (hui : spec_unit_index b = k)
    (hbu : spec_bucket b = k)
    (hx0 : 0 ≤ b / 1024 ^ k) (hx1 : b / 1024 ^ k < 1024)
    (hxg : k = 0 ∨ 1 ≤ b / 1024 ^ k)
    (hbeq : ∀ x : ℚ, (k = 0 → 0 ≤ x) → (1 ≤ k → 1024 ^ k ≤ x) →
      x < 1024 ^ (k + 1) → spec_bucket x = k) :
    spec_bucket (spec_reparse b) = spec_bucket b ∨
      spec_reparse b = 1024 ^ (spec_bucket b + 1) := by
  have hrw : spec_reparse b =
      ((roundHalfEven (b / 1024 ^ k * 100) : ℚ) / 100) * 1024 ^ k := by
    simp only [spec_reparse, hui]
  have hub := round_ub (b / 1024 ^ k * 100)
  have hlb := round_lb (b / 1024 ^ k * 100)
  have hn0 : 0 ≤ roundHalfEven (b / 1024 ^ k * 100) :=
    round_nonneg _ (by nlinarith)
  have hn_le : roundHalfEven (b / 1024 ^ k * 100) ≤ 102400 := by
    by_contra hc
    push_neg at hc
    have h1 : (102400:ℤ) + 1 ≤ roundHalfEven (b / 1024 ^ k * 100) := by omega
    have h2 : ((102401:ℤ):ℚ) ≤ (roundHalfEven (b / 1024 ^ k * 100) : ℚ) := by
      exact_mod_cast h1
    nlinarith
  have hpk : (0:ℚ) < 1024 ^ k := by positivity
  rcases eq_or_lt_of_le hn_le with heq | hlt
  · right
    rw [hbu, hrw, heq]
    push_cast
    rw [pow_succ]
    ring
  · left
    rw [hbu, hrw]
    apply hbeq
    · intro _
      have : (0:ℚ) ≤ (roundHalfEven (b / 1024 ^ k * 100) : ℚ) := by
        exact_mod_cast hn0
      positivity
    · intro hk1
      rcases hxg with hk0 | hxge1
      · omega
      · have h100 : (100:ℚ) ≤ (roundHalfEven (b / 1024 ^ k * 100) : ℚ) := by
          by_contra hc
          push_neg at hc
          have hz1 : roundHalfEven (b / 1024 ^ k * 100) < 100 := by
            exact_mod_cast hc
          have hz2 : roundHalfEven (b / 1024 ^ k * 100) ≤ 99 := by omega
          have hz3 : (roundHalfEven (b / 1024 ^ k * 100) : ℚ) ≤ 99 := by
            exact_mod_cast hz2
          nlinarith
        have hm1 : (1:ℚ) ≤ (roundHalfEven (b / 1024 ^ k * 100) : ℚ) / 100 := by
          rw [le_div_iff (by norm_num : (0:ℚ) < 100)]
          linarith
        nlinarith
    · have hz2 : roundHalfEven (b / 1024 ^ k * 100) ≤ 102399 := by omega
      have hz3 : (roundHalfEven (b / 1024 ^ k * 100) : ℚ) ≤ 102399 := by
        exact_mod_cast hz2
      have hm : (roundHalfEven (b / 1024 ^ k * 100) : ℚ) / 100 < 1024 := by
        rw [div_lt_iff (by norm_num : (0:ℚ) < 100)]
        linarith
      calc (roundHalfEven (b / 1024 ^ k * 100) : ℚ) / 100 * 1024 ^ k
          < 1024 * 1024 ^ k := by
            exact mul_lt_mul_of_pos_right hm hpk
        _ = 1024 ^ (k + 1) := by rw [pow_succ]; ring

/-- Every `spec_unit_index` value is one of the six unit indices. -/
theorem spec_unit_index_le_five (x : ℚ) : spec_unit_index x ≤ 5 := by
  simp only [spec_unit_index]
  split_ifs <;> norm_num

/-- Characterisation of `spec_bucket` on an interval `[1024^k, 1024^(k+1))`
(respectively `[0, 1024)` for `k = 0`). -/
theorem spec_bucket_eq_of_index :
    ∀ (k : ℕ), k ≤ 5 → ∀ x : ℚ, (k = 0 → 0 ≤ x) → (1 ≤ k → 1024 ^ k ≤ x) →
      x < 1024 ^ (k + 1) → spec_bucket x = k := by
  intro k hk5 x h0x hge hub
  interval_cases k
  · norm_num at hub
    simp only [spec_bucket]
    rw [if_pos hub]
  · have hl := hge (by norm_num)
    norm_num at hl hub
    simp only [spec_bucket]
    rw [if_neg (by linarith), if_pos hub]
  · have hl := hge (by norm_num)
    norm_num at hl hub
    simp only [spec_bucket]
    rw [if_neg (by linarith), if_neg (by linarith), if_pos hub]
  · have hl := hge (by norm_num)
    norm_num at hl hub
    simp only [spec_bucket]
    rw [if_neg (by linarith), if_neg (by linarith), if_neg (by linarith),
      if_pos hub]
  · have hl := hge (by norm_num)
    norm_num at hl hub
    simp only [spec_bucket]
    rw [if_neg (by linarith), if_neg (by linarith), if_neg (by linarith),
      if_neg (by linarith), if_pos hub]
  · have hl := hge (by norm_num)
    norm_num at hl hub
    simp only [spec_bucket]
    rw [if_neg (by linarith), if_neg (by linarith), if_neg (by linarith),
      if_neg (by linarith), if_neg (by linarith), if_pos hub]

/-! ## Claim theorems for `get_size` -/

/-- C1 (amended): for every non-negative byte count `b` strictly below
`2^53`, `get_size` returns the string made of the `.2f` decimal
magnitude of `b` divided by the selected unit's power of 1024, the unit
name, and the `"B"` suffix — so the suffixes range over B, KB, MB, GB,
TB, PB.  The selected unit index is the first `k` with `b < 1024^(k+1)`
(the stopping point of the repeated division by 1024), and it is the
largest unit not exceeding the value: `1024^k ≤ b` unless `k = 0`, and
`b < 1024^(k+1)`.  The amendment restricts the claim to `b < 2^53`, the
range on which Python's float arithmetic in the loop is exact and this
embedding coincides with the program: at and above `1024^6` the function
falls off its loop and returns `None` (see the counterexample), and on
`[2^53, 1024^6)` the outcome depends on IEEE-double rounding of the
int-to-float conversion, which can also produce `None` (e.g. at
`2^60 - 1`). -/
theorem get_size_unit_format (b : ℚ) (h0 : 0 ≤ b)
    (h53 : b < 9007199254740992) :
    get_size b "B" = some (fmt2 (b / 1024 ^ spec_unit_index b) ++
      unit_names.getD (spec_unit_index b) "" ++ "B") ∧
    (spec_unit_index b = 0 ∨ (1024:ℚ) ^ spec_unit_index b ≤ b) ∧
    b < 1024 ^ (spec_unit_index b + 1) :=
  get_size_spec b h0 (lt_trans h53 (by norm_num))

/-- C1 witness: the theorem applied at the byte count 2048. -/
theorem get_size_unit_format_witness :
    (0:ℚ) ≤ 2048 ∧ (2048:ℚ) < 9007199254740992 ∧
    (get_size 2048 "B" = some (fmt2 ((2048:ℚ) / 1024 ^ spec_unit_index 2048) ++
        unit_names.getD (spec_unit_index 2048) "" ++ "B") ∧
      (spec_unit_index (2048:ℚ) = 0 ∨
        (1024:ℚ) ^ spec_unit_index (2048:ℚ) ≤ 2048) ∧
      (2048:ℚ) < 1024 ^ (spec_unit_index (2048:ℚ) + 1)) :=
  ⟨by norm_num, by norm_num, get_size_unit_format 2048 (by norm_num) (by norm_num)⟩

/-- C1 counterexample: at the non-negative byte count `1024^6` the Python
loop exhausts its unit list and the function returns `None`, not a
formatted string — refuting the claim as stated for every non-negative
byte count.  (`1024^6 = 2^60` and all its quotients by powers of 1024 are
exact doubles, so on this input the embedding agrees with CPython even
though the input is above `2^53`.) -/
theorem get_size_none_at_pow6 :
    get_size 1152921504606846976 "B" = none := by
  with_unfolding_all rfl

/-- C2: the documented boundary values of `get_size`: 0 renders as
`"0.00B"`, 1023 keeps the bare `"B"` suffix (as `"1023.00B"`), 1024 is
`"1.00KB"`, and `1048576 = 1024^2` is `"1.00MB"`. -/
theorem get_size_boundary_values :
    get_size 0 "B" = some "0.00B" ∧ get_size 1023 "B" = some "1023.00B" ∧
    get_size 1024 "B" = some "1.00KB" ∧ get_size 1048576 "B" = some "1.00MB" := by
  refine ⟨?_, ?_, ?_, ?_⟩ <;> with_unfolding_all rfl

/-- C9 (amended): for every byte count `0 ≤ b < 2^53`, re-parsing the
output of `get_size b` — the rounded magnitude `n/100` rendered by `fmt2`
times the selected unit's power of 1024 — yields a value in the same
1024-unit bucket as `b`, or exactly the lower boundary `1024^(k+1)` of
the next bucket in the single escape case where the two-decimal magnitude
rounds up to `1024.00`.  The amendment (a) restricts to `b < 2^53`, the
range on which the loop's float arithmetic is exact and `get_size`
provably returns a string to re-parse (beyond it the IEEE rounding can
make the program return `None`, and for `b ≥ 1024^6` it always does),
and (b) admits the next-bucket boundary case, which the counterexample
`b = 1048575` shows is real. -/
theorem get_size_reparse_bucket (b : ℚ) (h0 : 0 ≤ b)
    (h53 : b < 9007199254740992) :
    get_size b "B" = some (fmt2 (b / 1024 ^ spec_unit_index b) ++
      unit_names.getD (spec_unit_index b) "" ++ "B") ∧
    (spec_bucket (spec_reparse b) = spec_bucket b ∨
      spec_reparse b = 1024 ^ (spec_bucket b + 1)) := by
  have h6 : b < 1152921504606846976 := lt_trans h53 (by norm_num)
  obtain ⟨hstr, hsel, hub2⟩ := get_size_spec b h0 h6
  refine ⟨hstr, ?_⟩
  have hk5 := spec_unit_index_le_five b
  have hpk : (0:ℚ) < 1024 ^ spec_unit_index b := by positivity
  have hge : 1 ≤ spec_unit_index b → (1024:ℚ) ^ spec_unit_index b ≤ b := by
    intro hk1
    rcases hsel with hk0 | hle
    · omega
    · exact hle
  have hbu : spec_bucket b = spec_unit_index b :=
    spec_bucket_eq_of_index (spec_unit_index b) hk5 b (fun _ => h0) hge hub2
  have hx0 : 0 ≤ b / 1024 ^ spec_unit_index b := div_nonneg h0 (le_of_lt hpk)
  have hx1 : b / 1024 ^ spec_unit_index b < 1024 := by
    rw [div_lt_iff hpk]
    calc b < 1024 ^ (spec_unit_index b + 1) := hub2
      _ = 1024 * 1024 ^ spec_unit_index b := by rw [pow_succ]; ring
  have hxg : spec_unit_index b = 0 ∨ 1 ≤ b / 1024 ^ spec_unit_index b := by
    rcases hsel with hk0 | hle
    · exact Or.inl hk0
    · refine Or.inr ?_
      rw [le_div_iff hpk]
      linarith
  exact reparse_case b (spec_unit_index b) rfl hbu hx0 hx1 hxg
    (spec_bucket_eq_of_index (spec_unit_index b) hk5)

/-- C9 witness: the theorem applied at the byte count 1536 (bucket 1,
magnitude `1.50KB`, re-parsed value 1536, same bucket). -/
theorem get_size_reparse_bucket_witness :
    (0:ℚ) ≤ 1536 ∧ (1536:ℚ) < 9007199254740992 ∧
    (get_size 1536 "B" = some (fmt2 ((1536:ℚ) / 1024 ^ spec_unit_index 1536) ++
        unit_names.getD (spec_unit_index 1536) "" ++ "B") ∧
      (spec_bucket (spec_reparse 1536) = spec_bucket (1536:ℚ) ∨
        spec_reparse 1536 = 1024 ^ (spec_bucket (1536:ℚ) + 1))) :=
  ⟨by norm_num, by norm_num,
    get_size_reparse_bucket 1536 (by norm_num) (by norm_num)⟩

/-- C9 counterexample: at `b = 1048575` (bucket 1, just below `1024^2`)
the magnitude `1048575/1024` rounds to `1024.00`, so the rendered string
is `"1024.00KB"` and the re-parsed value `1024.00 * 1024 = 1048576` lies
in bucket 2, not in the original value's bucket 1 — refuting the claim as
stated. -/
theorem get_size_reparse_bucket_cex :
    get_size 1048575 "B" = some "1024.00KB" ∧
    spec_bucket (1048575:ℚ) = 1 ∧
    spec_reparse 1048575 = 1048576 ∧
    spec_bucket (spec_reparse 1048575) = 2 := by
  refine ⟨?_, ?_, ?_, ?_⟩ <;> with_unfolding_all rfl

/-! ## Claim theorems for the collectors and the aggregator -/

/-- When the CPU-frequency query succeeds, the aggregation is the fixed
eleven-section list (shared shape lemma). -/
theorem hardware_info_eq (env : Env) (f : Freq) (hfq : env.cpu_freq = some f) :
    hardware_info env = Except.ok
      [("System Information", system_info env.uname),
       ("Boot Time", boot_time env.boot),
       ("CPU Information", Val.obj
         [("Physical cores", .nat env.physical_cores),
          ("Total cores", .nat env.logical_cores),
          ("Max Frequency", .str (fmt2 f.max ++ "Mhz")),
          ("Min Frequency", .str (fmt2 f.min ++ "Mhz")),
          ("Current Frequency", .str (fmt2 f.current ++ "Mhz"))]),
       ("CPU Usage Per Core", cpu_usage env.per_core env.total_cpu),
       ("Memory Information", memory_info env.vmem),
       ("SWAP Memory", swap_memory env.swap),
       ("Disk Information",
         match disk_info env.partitions env.disk_usage with
         | some l => Val.obj l
         | none => Val.null),
       ("Disk IO", diskio env.dio),
       ("Network Information", natwork_info env.ifs),
       ("IO Stat", io_stats env.nio),
       ("gpu_stats", gpu_stats env.gpus)] := by
  simp only [hardware_info, cpu_info, hfq]

/-- C3: whenever at least one enumerated partition's usage is readable,
`disk_info` returns from inside the loop at the first readable partition:
the enumeration splits as `pre ++ p :: post` with every partition of `pre`
unreadable and `p` readable, the run equals the run truncated right after
`p` (the partitions of `post` are never processed), exactly one entry of
the result carries usage figures, that entry is keyed by `p`'s device,
and each earlier partition still got its mount-metadata entry. -/
theorem disk_info_single_usage (ps : List Partition)
    (du : String → Except Unit Usage)
    (h : ∃ p ∈ ps, ∃ u, du p.mountpoint = Except.ok u) :
    ∃ pre p post u res,
      ps = pre ++ p :: post ∧
      (∀ q ∈ pre, ∀ u2, du q.mountpoint ≠ Except.ok u2) ∧
      du p.mountpoint = Except.ok u ∧
      disk_info ps du = some res ∧
      disk_info (pre ++ [p]) du = some res ∧
      res.countP (fun e => hasUsage e.2) = 1 ∧
      (∃ e ∈ res, e.1 = p.device ∧ hasUsage e.2 = true) ∧
      (∀ q ∈ pre, ∃ e ∈ res, e.1 = q.device) := by
  obtain ⟨pre, p, post, u, res, h1, h2, h3, h4, h5, h6c, h7, h8, _⟩ :=
    disk_info_go_spec du ps [] (by simp) h
  exact ⟨pre, p, post, u, res, h1, h2, h3, h4, h5, h6c, h7, h8⟩

/-- C3 witness: the theorem applied to the two-partition enumeration
`[pA, pB]` under the usage query that denies `"/"` and reads `"/boot"`. -/
theorem disk_info_single_usage_witness :
    (∃ p ∈ [pA, pB], ∃ u, du4 p.mountpoint = Except.ok u) ∧
    (∃ pre p post u res,
      [pA, pB] = pre ++ p :: post ∧
      (∀ q ∈ pre, ∀ u2, du4 q.mountpoint ≠ Except.ok u2) ∧
      du4 p.mountpoint = Except.ok u ∧
      disk_info [pA, pB] du4 = some res ∧
      disk_info (pre ++ [p]) du4 = some res ∧
      res.countP (fun e => hasUsage e.2) = 1 ∧
      (∃ e ∈ res, e.1 = p.device ∧ hasUsage e.2 = true) ∧
      (∀ q ∈ pre, ∃ e ∈ res, e.1 = q.device)) :=
  ⟨⟨pB, by simp, uA, rfl⟩,
    disk_info_single_usage [pA, pB] du4 ⟨pB, by simp, uA, rfl⟩⟩

/-- The result `disk_info` produces on the C4 failing input. -/
def resC4 : List (String × Val) :=
  [("/dev/sda1", Val.obj (partMeta pA)), ("/dev/sda2", Val.obj (partFull pB uA))]

/-- C4 evaluation at the failing input: three partitions, usage of exactly
the first (`/dev/sda1` on `"/"`) denied.  The claim requires entries for
the two other partitions and the failing one omitted; the code instead
keeps a metadata-only entry for the failing partition and, returning right
after the first readable partition, never enumerates `/dev/sda3` — the
result holds exactly the entries `/dev/sda1` (metadata only) and
`/dev/sda2`. -/
theorem disk_info_permission_eval :
    disk_info [pA, pB, pC] du4 = some resC4 ∧
    resC4.map Prod.fst = ["/dev/sda1", "/dev/sda2"] := by
  refine ⟨?_, ?_⟩ <;> with_unfolding_all rfl

/-- C5 evaluation at the failing input: on a platform without CPU
frequency (`cpu_freq` query fails) the unguarded attribute access in
`cpu_info` raises, the exception escapes, and `hardware_info` produces no
report at all — the failure is not local, contradicting the claimed
tolerance. -/
theorem hardware_info_nofreq_error :
    cpu_info env_nofreq.physical_cores env_nofreq.logical_cores
      env_nofreq.cpu_freq = Except.error () ∧
    hardware_info env_nofreq = Except.error () :=
  ⟨rfl, rfl⟩

/-- C6: with zero GPUs enumerated, `gpu_stats` does not fail and returns
the fixed outer dict whose single `"GPU"` record is empty, and (whenever
the report is produced at all, i.e. the CPU-frequency query succeeds) the
`gpu_stats` section of the report is present with exactly that empty
record — present and empty, not absent. -/
theorem gpu_stats_zero_gpus (env : Env) (hg : env.gpus = [])
    (hf : env.cpu_freq.isSome = true) :
    gpu_stats env.gpus = Val.obj [("GPU", Val.obj [])] ∧
    ∃ r, hardware_info env = Except.ok r ∧
      ("gpu_stats", Val.obj [("GPU", Val.obj [])]) ∈ r := by
  constructor
  · rw [hg]; rfl
  · rcases hfq : env.cpu_freq with _ | f
    · rw [hfq] at hf; simp at hf
    · exact ⟨_, hardware_info_eq env f hfq, by simp [hg, gpu_stats]⟩

/-- C6 witness: the theorem applied to `env0`, which has no GPUs. -/
theorem gpu_stats_zero_gpus_witness :
    env0.gpus = [] ∧ env0.cpu_freq.isSome = true ∧
    (gpu_stats env0.gpus = Val.obj [("GPU", Val.obj [])] ∧
      ∃ r, hardware_info env0 = Except.ok r ∧
        ("gpu_stats", Val.obj [("GPU", Val.obj [])]) ∈ r) :=
  ⟨rfl, rfl, gpu_stats_zero_gpus env0 rfl rfl⟩

/-- C7: with two or more GPUs enumerated, each loop iteration overwrites
the same eight keys of the single flat `"GPU"` record, so `gpu_stats`
returns exactly the last enumerated GPU's id, uuid, name, load, memory
and temperature fields. -/
theorem gpu_stats_last_wins (gs : List GPU) (g : GPU) (h2 : 2 ≤ gs.length)
    (hl : gs.getLast? = some g) :
    gpu_stats gs = Val.obj [("GPU", Val.obj (gpuFields g))] := by
  cases gs with
  | nil => simp at h2
  | cons g0 rest =>
      cases rest with
      | nil => simp at h2
      | cons g1 rest2 =>
          have h1 : ((g0 :: g1 :: rest2).foldl gpuUpd []) =
              (g1 :: rest2).foldl gpuUpd (gpuFields g0) := by
            simp [List.foldl_cons, gpuUpd_nil]
          have h3 := gpu_foldl_last (g1 :: rest2) g0
          rw [List.getLast?_cons_cons] at hl
          unfold gpu_stats
          rw [h1, h3, hl]
          rfl

/-- C7 witness: the theorem applied to the two-GPU enumeration
`[gA, gB]`; the record kept is `gB`'s. -/
theorem gpu_stats_last_wins_witness :
    2 ≤ [gA, gB].length ∧ [gA, gB].getLast? = some gB ∧
    gpu_stats [gA, gB] = Val.obj [("GPU", Val.obj (gpuFields gB))] :=
  ⟨by norm_num, rfl, gpu_stats_last_wins [gA, gB] gB (by norm_num) rfl⟩

/-- C8 (amended): whenever the report is produced (the CPU-frequency query
succeeds), its section keys are exactly `System Information`, `Boot Time`,
`CPU Information`, `CPU Usage Per Core`, `Memory Information`,
`SWAP Memory`, `Disk Information`, `Disk IO`, `Network Information`,
`IO Stat`, and `gpu_stats`, in that fixed order.  The amendment replaces
the claimed final key `GPU Stats` by the key the code actually writes,
`gpu_stats` (see the counterexample). -/
theorem hardware_info_section_keys (env : Env)
    (hf : env.cpu_freq.isSome = true) :
    ∃ r, hardware_info env = Except.ok r ∧
      r.map Prod.fst = ["System Information", "Boot Time", "CPU Information",
        "CPU Usage Per Core", "Memory Information", "SWAP Memory",
        "Disk Information", "Disk IO", "Network Information", "IO Stat",
        "gpu_stats"] := by
  rcases hfq : env.cpu_freq with _ | f
  · rw [hfq] at hf; simp at hf
  · exact ⟨_, hardware_info_eq env f hfq, rfl⟩

/-- C8 witness: the theorem applied to `env0`. -/
theorem hardware_info_section_keys_witness :
    env0.cpu_freq.isSome = true ∧
    ∃ r, hardware_info env0 = Except.ok r ∧
      r.map Prod.fst = ["System Information", "Boot Time", "CPU Information",
        "CPU Usage Per Core", "Memory Information", "SWAP Memory",
        "Disk Information", "Disk IO", "Network Information", "IO Stat",
        "gpu_stats"] :=
  ⟨rfl, hardware_info_section_keys env0 rfl⟩

/-- C8 counterexample: at the concrete invocation `env0` the key list ends
in `gpu_stats`, and it is not the claimed list ending in `GPU Stats` —
refuting the claimed key set as stated. -/
theorem hardware_info_keys_cex :
    reportKeys (hardware_info env0) =
      some ["System Information", "Boot Time", "CPU Information",
        "CPU Usage Per Core", "Memory Information", "SWAP Memory",
        "Disk Information", "Disk IO", "Network Information", "IO Stat",
        "gpu_stats"] ∧
    reportKeys (hardware_info env0) ≠
      some ["System Information", "Boot Time", "CPU Information",
        "CPU Usage Per Core", "Memory Information", "SWAP Memory",
        "Disk Information", "Disk IO", "Network Information", "IO Stat",
        "GPU Stats"] := by
  have h1 : reportKeys (hardware_info env0) =
      some ["System Information", "Boot Time", "CPU Information",
        "CPU Usage Per Core", "Memory Information", "SWAP Memory",
        "Disk Information", "Disk IO", "Network Information", "IO Stat",
        "gpu_stats"] := by with_unfolding_all rfl
  refine ⟨h1, ?_⟩
  rw [h1]
  intro hcontra
  have h2 := Option.some.inj hcontra
  simp at h2

/-- C10: with an empty partition enumeration the `disk_info` loop body
never runs and the function falls off its end returning `None`; in the
report (whenever it is produced) the `Disk Information` section is the
null value, not an empty mapping. -/
theorem disk_info_empty_none (du : String → Except Unit Usage) (env : Env)
    (hp : env.partitions = []) (hf : env.cpu_freq.isSome = true) :
    disk_info [] du = none ∧
    ∃ r, hardware_info env = Except.ok r ∧ ("Disk Information", Val.null) ∈ r := by
  refine ⟨rfl, ?_⟩
  rcases hfq : env.cpu_freq with _ | f
  · rw [hfq] at hf; simp at hf
  · exact ⟨_, hardware_info_eq env f hfq, by simp [hp, disk_info, disk_info_go]⟩

/-- C10 witness: the theorem applied to `env0`, whose partition
enumeration is empty. -/
theorem disk_info_empty_none_witness :
    env0.partitions = [] ∧ env0.cpu_freq.isSome = true ∧
    (disk_info [] duA = none ∧
      ∃ r, hardware_info env0 = Except.ok r ∧
        ("Disk Information", Val.null) ∈ r) :=
  ⟨rfl, rfl, disk_info_empty_none duA env0 rfl rfl⟩

end GetHardInfo
